import Mathlib

/-!
Verification of the engine-augmented chat streaming relay of the
chess-coach-ai repository.  The definitions below are a shallow embedding of
`src/app/api/chat/route.ts` (server route) and of the stream-consuming
`handleSend` loop of the `AICoachChat` client component.  Each definition's
doc comment points at the source lines it embeds.
-/

namespace ChessCoach

/-- Role of a chat message: the `role` field of the `Message` interface
(route.ts lines 9-12). -/
inductive Role
  | user
  | assistant
  | system
deriving DecidableEq

/-- A chat message (route.ts lines 9-12). -/
structure Message where
  role : Role
  content : String
deriving DecidableEq

/-- The request body of the chat endpoint (route.ts lines 14-18). -/
structure ChatRequest where
  messages : List Message
  position : String
  model : String
deriving DecidableEq

/-- Does the character list start with the given pattern?  Models the prefix
test underlying `String.prototype.includes`. -/
def charsStartWith : List Char → List Char → Bool
  | _, [] => true
  | [], _ :: _ => false
  | a :: as, b :: bs => a == b && charsStartWith as bs

/-- Does the character list contain the given pattern as a contiguous
substring? -/
def charsContain : List Char → List Char → Bool
  | [], pat => pat.isEmpty
  | a :: as, pat => charsStartWith (a :: as) pat || charsContain as pat

/-- `includesSub s pat` models the JavaScript test `s.includes(pat)`
(route.ts line 28: `output.includes('bestmove')`). -/
def includesSub (s pat : String) : Bool := charsContain s.data pat.data

/-- The sentinel token marking the end of one engine analysis
(route.ts line 28). -/
def sentinelToken : String := "bestmove"

/-- One write to the engine process's stdin.  `sentinelsBefore` records how
many sentinel-bearing output events had been observed when the write was
issued, so that ordering of writes relative to sentinels can be stated. -/
structure EngineWrite where
  reqId : Nat
  command : String
  sentinelsBefore : Nat
deriving DecidableEq

/-- One `stockfish.stdout.on('data', ...)` listener registered by a
`getStockfishAnalysis` call (route.ts lines 24-31).  `analysis` is the
closure-local accumulator of that call; `resolvedWith` records the value the
call's promise resolved with, if it has resolved. -/
structure EngineListener where
  reqId : Nat
  analysis : String
  resolvedWith : Option String
deriving DecidableEq

/-- The state of the shared engine process handle (route.ts line 7 spawns a
single process shared by all requests): the stdin writes issued so far, the
stdout data listeners attached so far, and how many sentinel-bearing output
events have occurred. -/
structure EngineSessionState where
  writes : List EngineWrite
  listeners : List EngineListener
  sentinelsObserved : Nat
deriving DecidableEq

/-- Events of the engine session: a `getStockfishAnalysis(fen, depth)` call
being made, or a data event on the shared process's stdout. -/
inductive EngineEvent
  | callAnalyze (reqId : Nat) (fen : String) (depth : Nat)
  | stdoutData (output : String)
deriving DecidableEq

/-- One step of the engine session, from route.ts lines 20-45.
A `callAnalyze` event runs the executor of the promise returned by
`getStockfishAnalysis`: it attaches a fresh data listener (line 24) and then
synchronously writes the position-set and go-depth commands (lines 42-43) —
there is no wait, queue, or state check before the writes.  A `stdoutData`
event delivers the output text to every attached listener (listeners are
never removed); each listener appends it to its accumulator (line 26) and
resolves with the accumulated text if the output contains the sentinel
(lines 28-30); a promise resolves at most once. -/
def engineStep (s : EngineSessionState) : EngineEvent → EngineSessionState
  | .callAnalyze reqId fen depth =>
    { s with
      listeners := s.listeners ++ [⟨reqId, "", none⟩]
      writes := s.writes ++
        [⟨reqId, "position fen " ++ fen ++ "\n", s.sentinelsObserved⟩,
         ⟨reqId, "go depth " ++ toString depth ++ "\n", s.sentinelsObserved⟩] }
  | .stdoutData output =>
    { writes := s.writes
      listeners := s.listeners.map fun l =>
        { reqId := l.reqId
          analysis := l.analysis ++ output
          resolvedWith :=
            match l.resolvedWith with
            | some v => some v
            | none =>
              if includesSub output sentinelToken then some (l.analysis ++ output)
              else none }
      sentinelsObserved :=
        if includesSub output sentinelToken then s.sentinelsObserved + 1
        else s.sentinelsObserved }

/-- The engine session state before any call. -/
def initialEngineState : EngineSessionState := ⟨[], [], 0⟩

/-- Run the engine session over a sequence of events. -/
def runEngine (events : List EngineEvent) : EngineSessionState :=
  events.foldl engineStep initialEngineState

/-- The event sequence produced when a second `getStockfishAnalysis` call
arrives while the first is still in flight (both calls occur before any
engine output): both executors run, then the engine answers the first
search. -/
def c1trace : List EngineEvent :=
  [.callAnalyze 1 "fen1" 20, .callAnalyze 2 "fen2" 20,
   .stdoutData "info depth 20 bestmove e2e4"]

/-- The augmented content of the last user message (route.ts line 56):
board position, then analysis, then the original question. -/
def augmentedContent (position analysis original : String) : String :=
  "Chess position (FEN): " ++ position ++ "\nStockfish analysis:\n" ++ analysis
    ++ "\n\nUser question: " ++ original

/-- Does the conversation contain a user-role message?  The condition under
which `messages.findLast(m => m.role === 'user')` (route.ts line 54) finds a
message. -/
def hasUser (ms : List Message) : Bool :=
  ms.any fun m => decide (m.role = Role.user)

/-- The messages array after route.ts lines 54-57: the last user-role
message (the one `findLast` returns) has its content rewritten to
`augmentedContent`; when no user message exists the `if` at line 55 is
skipped and the array is unchanged. -/
def augmentMessages (position analysis : String) : List Message → List Message
  | [] => []
  | m :: rest =>
    if hasUser rest then m :: augmentMessages position analysis rest
    else if m.role = Role.user then
      { m with content := augmentedContent position analysis m.content } :: rest
    else m :: rest

/-- The role mapping of route.ts line 63: assistant stays assistant, any
other surviving role becomes user. -/
def toAnthropicRole (r : Role) : Role :=
  if r = Role.assistant then Role.assistant else Role.user

/-- The messages sent to the provider (route.ts lines 60-65): system-role
messages are filtered out, the rest are mapped to the provider's role
vocabulary with contents unchanged. -/
def anthropicMessagesOf (ms : List Message) : List Message :=
  (ms.filter fun m => decide (¬ m.role = Role.system)).map fun m =>
    ⟨toAnthropicRole m.role, m.content⟩

/-- The model identifier hardcoded into the provider call
(route.ts line 70) and matched when resolving the credential (line 153). -/
def claudeModelId : String := "claude-sonnet-4-20250514"

/-- The credential hardcoded at route.ts line 154. -/
def hardcodedAnthropicKey : String :=
  "sk-ant-REDACTED"

/-- Process-wide configuration visible to the route: the value of
`process.env.GEMINI_API_KEY` (route.ts line 158), with the empty string
standing for an unset variable as in the `|| ''` fallback. -/
structure Env where
  geminiKey : String
deriving DecidableEq

/-- Credential resolution from route.ts lines 151-159. -/
def resolveApiKey (env : Env) (model : String) : String :=
  if model = claudeModelId then hardcodedAnthropicKey
  else if model = "gemini-2.5-pro" then env.geminiKey
  else ""

/-- The provider call issued at route.ts lines 69-74. -/
structure ProviderCall where
  model : String
  maxTokens : Nat
  messages : List Message
deriving DecidableEq

/-- Externally visible effects of one POST request: the commands written to
the engine process's stdin and the provider call, if one was made. -/
structure PostEffects where
  engineWrites : List String
  providerCall : Option ProviderCall
deriving DecidableEq

/-- Result of the POST handler on its non-stream paths: a JSON error
response with a status code (route.ts lines 144-148, 167-171), or the
established streaming response. -/
inductive PostResult
  | jsonError (status : Nat) (error : String)
  | stream
deriving DecidableEq

/-- The two commands `getStockfishAnalysis` writes (route.ts lines 42-43);
the depth defaults to 20 (line 20). -/
def engineCommands (fen : String) (depth : Nat) : List String :=
  ["position fen " ++ fen ++ "\n", "go depth " ++ toString depth ++ "\n"]

/-- The POST handler (route.ts lines 134-188) up to the establishment of the
streaming response.  `chessLoadOk` is the oracle for whether
`new Chess().load(position)` succeeds (chess.js is an external library);
`analysis` is the text the engine resolves with.  Position validation
(lines 140-148) runs first; then credential resolution (lines 150-171); only
then does `streamAnthropicResponse` run, which performs the engine analysis
(line 53), augments the last user message (lines 54-57) and issues the
provider call (lines 69-74) with the hardcoded model identifier. -/
def runPOST (chessLoadOk : String → Bool) (env : Env) (req : ChatRequest)
    (analysis : String) : PostResult × PostEffects :=
  if chessLoadOk req.position then
    if resolveApiKey env req.model = "" then
      (.jsonError 400 "API key not found for selected model", ⟨[], none⟩)
    else
      (.stream,
       ⟨engineCommands req.position 20,
        some ⟨claudeModelId, 4096,
          anthropicMessagesOf (augmentMessages req.position analysis req.messages)⟩⟩)
  else (.jsonError 400 "Invalid chess position", ⟨[], none⟩)

/-- The contents of the request's `messages` array after the POST handler
returns.  `lastUserMessage` (route.ts line 54) aliases an element of the
incoming `messages` array, so the assignment at line 56 mutates the
request's own message in place; on the two error paths the array is never
touched. -/
def requestMessagesAfter (chessLoadOk : String → Bool) (env : Env)
    (req : ChatRequest) (analysis : String) : List Message :=
  if chessLoadOk req.position then
    if resolveApiKey env req.model = "" then req.messages
    else augmentMessages req.position analysis req.messages
  else req.messages

/-- Outcome of decoding one provider-native chunk (route.ts lines 83-87):
the chunk's text either fails `JSON.parse` (`malformed`), or parses to an
object whose `type` is `content_block_delta` (with the optional
`delta.text`), `error` (with the optional error message), or anything
else. -/
inductive ProviderChunk
  | contentBlockDelta (text : Option String)
  | errorChunk (message : Option String)
  | otherParsed
  | malformed
deriving DecidableEq

/-- One frame of the wire event protocol: a delta frame (rendered as a
single SSE data line carrying the JSON payload with the content delta,
route.ts lines 91-98, followed by a blank line) or the termination frame
(the literal SSE line with the DONE marker followed by a blank line,
route.ts line 113). -/
inductive Frame
  | delta (content : String)
  | done
deriving DecidableEq

/-- The `transform` callback (route.ts lines 81-109) on one chunk: `some fs`
means the frames `fs` were enqueued and the stream continues; `none` means
the catch block ran `controller.error(e)`, erroring the stream.  A parse
failure of `JSON.parse` (line 87) throws into the catch (lines 105-108), as
does the explicit `throw` for an error-typed chunk (line 103).  A
content-block delta with an absent or empty `delta.text` is falsy at
line 90 and enqueues nothing, as does any other parsed chunk type. -/
def transformChunk : ProviderChunk → Option (List Frame)
  | .contentBlockDelta (some t) => if t = "" then some [] else some [Frame.delta t]
  | .contentBlockDelta none => some []
  | .otherParsed => some []
  | .errorChunk _ => none
  | .malformed => none

/-- Run the TransformStream over the whole chunk sequence: the first
component is the emitted frame sequence, the second is whether the stream
ended in the errored state.  `flush` (route.ts lines 110-115), which emits
the single termination frame, runs only when every chunk was transformed
without `controller.error`; after `controller.error` no further chunk is
processed and no flush occurs. -/
def transcode : List ProviderChunk → List Frame × Bool
  | [] => ([Frame.done], false)
  | c :: rest =>
    match transformChunk c with
    | some fs => (fs ++ (transcode rest).1, (transcode rest).2)
    | none => ([], true)

/-- A chunk the `transform` callback survives without erroring the
stream. -/
def chunkOk (c : ProviderChunk) : Bool := (transformChunk c).isSome

/-- Number of termination frames in a frame sequence. -/
def countDone (fs : List Frame) : Nat :=
  (fs.filter fun f => decide (f = Frame.done)).length

/-- The frames the ok chunks of a sequence enqueue, in order. -/
def okFrames : List ProviderChunk → List Frame
  | [] => []
  | c :: rest => (transformChunk c).getD [] ++ okFrames rest

/-- One nonempty line of a received chunk, as classified by the client loop
(AICoachChat handleSend, lines 135-160): a `data: ` line whose JSON parses
(`content` is `parsed.choices[0].delta.content` or the empty string when
that path is absent), the `data: [DONE]` line, a `data: ` line whose JSON
does not parse, or a line without the `data: ` prefix. -/
inductive WireLine
  | dataDelta (content : String)
  | dataDone
  | dataMalformed
  | nonData
deriving DecidableEq

/-- What the client's read loop observes next (AICoachChat handleSend,
lines 124-162): a line of a received chunk; the pending `reader.read()`
rejecting with `AbortError` because the abort controller fired; some other
error being thrown (transport failure); or `done` becoming true. -/
inductive ConsumerEvent
  | recv (l : WireLine)
  | abortSignal
  | transportFail
  | streamDone
deriving DecidableEq

/-- How one run of the client loop ended. -/
inductive ConsumeOutcome
  | completed
  | cancelled
  | failed
deriving DecidableEq

/-- The fallback message appended on a non-abort error (AICoachChat
handleSend, lines 168-171). -/
def fallbackMessage : Message :=
  ⟨Role.assistant, "Sorry, I encountered an error. Please try again."⟩

/-- Apply one content delta to the conversation (the `setMessages` updater
at AICoachChat lines 148-155): the content is appended to the last message
when its role is assistant; otherwise the conversation is returned
unchanged. -/
def applyDelta (c : String) : List Message → List Message
  | [] => []
  | [m] =>
    if m.role = Role.assistant then [{ m with content := m.content ++ c }]
    else [m]
  | m :: m2 :: rest => m :: applyDelta c (m2 :: rest)

/-- Process one line (AICoachChat lines 135-160): a line without the
`data: ` prefix is ignored; the DONE line hits `continue` (line 140); a
parse failure is logged and skipped (lines 157-159); a parsed delta with
empty content is skipped by the falsy test at line 146; otherwise the delta
is applied. -/
def applyLine (l : WireLine) (ms : List Message) : List Message :=
  match l with
  | .dataDelta c => if c = "" then ms else applyDelta c ms
  | .dataDone => ms
  | .dataMalformed => ms
  | .nonData => ms

/-- The client read loop with its catch clause (AICoachChat lines 124-176):
received lines are applied in order; an `AbortError` (the error name checked
at line 164) exits with only a log, appending nothing; any other error
appends the single fallback message (lines 168-171); `done` ends the loop
normally.  After an abort or failure no further event is processed. -/
def consume : List ConsumerEvent → List Message → List Message × ConsumeOutcome
  | [], ms => (ms, .completed)
  | .recv l :: rest, ms => consume rest (applyLine l ms)
  | .abortSignal :: _, ms => (ms, .cancelled)
  | .transportFail :: _, ms => (ms ++ [fallbackMessage], .failed)
  | .streamDone :: _, ms => (ms, .completed)

/-! ## Helper lemmas -/

/-- Unfolding of `hasUser` on a cons cell. -/
theorem hasUser_cons (m : Message) (rest : List Message) :
    hasUser (m :: rest) = (decide (m.role = Role.user) || hasUser rest) := rfl

/-- When no user message exists, augmentation leaves the conversation
unchanged. -/
theorem augment_noop (position analysis : String) (ms : List Message)
    (h : hasUser ms = false) : augmentMessages position analysis ms = ms := by
  induction ms with
  | nil => rfl
  | cons m rest ih =>
    rw [hasUser_cons, Bool.or_eq_false_iff] at h
    have h1 : ¬ m.role = Role.user := of_decide_eq_false h.1
    have h2 : hasUser rest = false := h.2
    simp [augmentMessages, h1, h2, ih h2]

/-- Mapping a role-only function over the non-system messages is unaffected
by augmentation (augmentation changes one content, never a role). -/
theorem augment_filter_map {α : Type} (g : Role → α) (position analysis : String)
    (ms : List Message) :
    ((augmentMessages position analysis ms).filter fun m =>
        decide (¬ m.role = Role.system)).map (fun m => g m.role)
      = (ms.filter fun m => decide (¬ m.role = Role.system)).map
          fun m => g m.role := by
  induction ms with
  | nil => rfl
  | cons m rest ih =>
    by_cases hr : hasUser rest
    · by_cases hs : m.role = Role.system <;>
        simp [augmentMessages, hr, List.filter_cons, hs] <;> simpa using ih
    · by_cases hu : m.role = Role.user
      · have hs : ¬ m.role = Role.system := by rw [hu]; intro hc; cases hc
        simp [augmentMessages, hr, hu, List.filter_cons, hs]
      · simp [augmentMessages, hr, hu]

/-- The provider role mapping never yields the system role. -/
theorem toAnthropicRole_ne_system (r : Role) : toAnthropicRole r ≠ Role.system := by
  cases r <;> decide

/-- Termination-frame count distributes over append. -/
theorem countDone_append (a b : List Frame) :
    countDone (a ++ b) = countDone a + countDone b := by
  simp [countDone, List.filter_append]

/-- The frames enqueued for a single surviving chunk contain no termination
frame: `flush` is the only emitter of the termination frame. -/
theorem transformChunk_no_done (c : ProviderChunk) (fs : List Frame)
    (h : transformChunk c = some fs) : countDone fs = 0 := by
  cases c with
  | contentBlockDelta t =>
    cases t with
    | none =>
      simp [transformChunk] at h
      subst h; rfl
    | some s =>
      by_cases hs : s = "" <;> simp [transformChunk, hs] at h <;> subst h <;> rfl
  | errorChunk m => simp [transformChunk] at h
  | otherParsed =>
    simp [transformChunk] at h
    subst h; rfl
  | malformed => simp [transformChunk] at h

/-! ## C1: engine session serialization -/

/-- Claim C1, counterexample: in the trace where a second
`getStockfishAnalysis` call arrives before the first call's sentinel, both
stdin writes of the second call are issued while zero sentinels have been
observed (so the second call begins writing before the first call's sentinel
is observed), and the second call's promise resolves with the output of the
first call's analysis (the line carrying the first search's best move is
attributed to the second request as well). -/
theorem c1_counterexample :
    ((runEngine c1trace).writes.filter fun w => decide (w.reqId = 2))
        = [⟨2, "position fen fen2\n", 0⟩, ⟨2, "go depth 20\n", 0⟩]
      ∧ (((runEngine c1trace).listeners.filter fun l => decide (l.reqId = 2)).map
            EngineListener.resolvedWith)
          = [some "info depth 20 bestmove e2e4"] := by
  constructor <;> rfl

/-- Claim C1, amended: a `getStockfishAnalysis` call writes its position-set
and go-depth commands immediately at call time — the number of sentinels
observed at the write is whatever it happens to be in the current state,
with no waiting — and an engine output event is delivered to every attached
listener's accumulator, so output is shared by all in-flight requests rather
than attributed to exactly one. -/
theorem c1_amended (s : EngineSessionState) (reqId : Nat) (fen : String)
    (depth : Nat) (output : String) :
    (engineStep s (EngineEvent.callAnalyze reqId fen depth)).writes
        = s.writes ++
            [⟨reqId, "position fen " ++ fen ++ "\n", s.sentinelsObserved⟩,
             ⟨reqId, "go depth " ++ toString depth ++ "\n", s.sentinelsObserved⟩]
      ∧ (engineStep s (EngineEvent.stdoutData output)).listeners.map
            (fun l => l.analysis)
          = s.listeners.map fun l => l.analysis ++ output := by
  refine ⟨rfl, ?_⟩
  simp [engineStep, List.map_map]

/-! ## C2: exactly one termination frame -/

/-- Claim C2, counterexample: when the provider's chunk sequence ends
abruptly with an explicit error chunk, the transform callback errors the
stream, `flush` never runs, and the emitted frame sequence contains zero
termination frames rather than exactly one. -/
theorem c2_counterexample :
    transcode [ProviderChunk.contentBlockDelta (some "Hi"),
               ProviderChunk.errorChunk (some "overloaded")]
        = ([Frame.delta "Hi"], true)
      ∧ countDone (transcode [ProviderChunk.contentBlockDelta (some "Hi"),
               ProviderChunk.errorChunk (some "overloaded")]).1 = 0 := by
  constructor <;> rfl

/-- Claim C2, amended: the transcoder emits exactly one termination frame
when every chunk of the provider sequence is transformed without error, and
zero termination frames when any chunk (malformed or explicit error) errors
the stream; the stream ends errored exactly when such a chunk occurs. -/
theorem c2_amended (cs : List ProviderChunk) :
    countDone (transcode cs).1 = (if cs.all chunkOk then 1 else 0)
      ∧ (transcode cs).2 = !(cs.all chunkOk) := by
  induction cs with
  | nil => exact ⟨rfl, rfl⟩
  | cons c rest ih =>
    cases hc : transformChunk c with
    | some fs =>
      have hok : chunkOk c = true := by simp [chunkOk, hc]
      have hz := transformChunk_no_done c fs hc
      refine ⟨?_, ?_⟩
      · simp [transcode, hc, countDone_append, hz, List.all_cons, hok, ih.1]
      · simp [transcode, hc, List.all_cons, hok, ih.2]
    | none =>
      have hok : chunkOk c = false := by simp [chunkOk, hc]
      refine ⟨?_, ?_⟩
      · simp [transcode, hc, List.all_cons, hok, countDone]
      · simp [transcode, hc, List.all_cons, hok]

/-! ## C3: malformed chunks -/

/-- Claim C3, counterexample: a malformed chunk is fatal — the transform
callback errors the stream, the following perfectly parseable delta chunk is
never transcoded, and no termination frame is emitted, rather than the
malformed chunk being skipped and transcoding continuing. -/
theorem c3_counterexample :
    transcode [ProviderChunk.malformed, ProviderChunk.contentBlockDelta (some "x")]
      = ([], true) := rfl

/-- Claim C3, amended: a malformed chunk errors the stream: the frames of
the chunks before it are emitted, every chunk after it is dropped, the
stream ends errored, and no termination frame is emitted. -/
theorem c3_amended (pre suf : List ProviderChunk) (h : pre.all chunkOk = true) :
    transcode (pre ++ ProviderChunk.malformed :: suf) = (okFrames pre, true) := by
  induction pre with
  | nil => rfl
  | cons c pre ih =>
    rw [List.all_cons, Bool.and_eq_true] at h
    have hc : ∃ fs, transformChunk c = some fs := by
      have := h.1
      simp [chunkOk, Option.isSome_iff_exists] at this
      exact this
    obtain ⟨fs, hfs⟩ := hc
    simp [transcode, hfs, ih h.2, okFrames]

/-- Witness for the amended C3 at a concrete input: one surviving delta
chunk followed by a malformed chunk yields exactly that delta's frame, an
errored stream, and no termination frame. -/
theorem c3_amended_witness :
    ([ProviderChunk.contentBlockDelta (some "x")].all chunkOk = true)
      ∧ transcode ([ProviderChunk.contentBlockDelta (some "x")] ++
            ProviderChunk.malformed :: [])
          = (okFrames [ProviderChunk.contentBlockDelta (some "x")], true) :=
  ⟨by decide, c3_amended [ProviderChunk.contentBlockDelta (some "x")] [] (by decide)⟩

/-! ## C4: augmentation rewrites exactly the last user turn -/

/-- Claim C4: for every conversation containing at least one user-role
message, augmentation rewrites exactly the most recent user-role turn — the
conversation splits as `pre ++ u :: suf` with `u` a user turn and no user
turn in `suf`, and the augmented conversation is the same list with only
`u`'s content replaced by the board position followed by the analysis text
followed by the original content; every message in `pre` and `suf` is
unchanged. -/
theorem c4_augments_last_user (position analysis : String) (ms : List Message)
    (h : hasUser ms = true) :
    ∃ pre u suf, ms = pre ++ u :: suf ∧ u.role = Role.user ∧ hasUser suf = false ∧
      augmentMessages position analysis ms
        = pre ++ { u with content := augmentedContent position analysis u.content }
            :: suf := by
  induction ms with
  | nil => simp [hasUser] at h
  | cons m rest ih =>
    by_cases hr : hasUser rest
    · obtain ⟨pre, u, suf, hms, hu, hsuf, heq⟩ := ih hr
      refine ⟨m :: pre, u, suf, by rw [hms]; rfl, hu, hsuf, ?_⟩
      simp [augmentMessages, hr, heq]
    · have hr' : hasUser rest = false := by simpa using hr
      have hm : m.role = Role.user := by
        rw [hasUser_cons, hr', Bool.or_false, decide_eq_true_eq] at h
        exact h
      exact ⟨[], m, rest, rfl, hm, hr', by simp [augmentMessages, hr', hm]⟩

/-- Witness for C4 at a concrete input: a system turn followed by a user
turn; the user turn is the rewritten one. -/
theorem c4_witness :
    hasUser [(⟨Role.system, "sys"⟩ : Message), ⟨Role.user, "best move"⟩] = true
      ∧ ∃ pre u suf,
          ([(⟨Role.system, "sys"⟩ : Message), ⟨Role.user, "best move"⟩]
              : List Message) = pre ++ u :: suf
          ∧ u.role = Role.user ∧ hasUser suf = false
          ∧ augmentMessages "P" "A"
                [(⟨Role.system, "sys"⟩ : Message), ⟨Role.user, "best move"⟩]
              = pre ++
                  { u with content := augmentedContent "P" "A" u.content } :: suf :=
  ⟨by decide, c4_augments_last_user "P" "A" _ (by decide)⟩

/-! ## C5: missing user turn -/

/-- Claim C5, counterexample: a conversation with no user-role message
passes through augmentation silently — the POST handler still establishes
the stream and still makes a provider call, instead of returning an error
surfaced upstream. -/
theorem c5_counterexample :
    hasUser [(⟨Role.assistant, "hi"⟩ : Message)] = false
      ∧ (runPOST (fun _ => true) ⟨""⟩
            ⟨[⟨Role.assistant, "hi"⟩], "FEN", "claude-sonnet-4-20250514"⟩ "A").1
          = PostResult.stream
      ∧ ¬ (runPOST (fun _ => true) ⟨""⟩
            ⟨[⟨Role.assistant, "hi"⟩], "FEN", "claude-sonnet-4-20250514"⟩
            "A").2.providerCall = none := by
  refine ⟨rfl, rfl, ?_⟩
  intro hc
  cases hc

/-- Claim C5, amended: when the conversation contains no user-role message,
augmentation is silently skipped — the handler proceeds to the provider call
with the conversation unchanged (converted to provider format), and no error
is surfaced. -/
theorem c5_amended (chessLoadOk : String → Bool) (env : Env) (req : ChatRequest)
    (analysis : String) (h0 : hasUser req.messages = false)
    (h1 : chessLoadOk req.position = true)
    (h2 : ¬ resolveApiKey env req.model = "") :
    (runPOST chessLoadOk env req analysis).1 = PostResult.stream
      ∧ (runPOST chessLoadOk env req analysis).2.providerCall
          = some ⟨claudeModelId, 4096, anthropicMessagesOf req.messages⟩ := by
  constructor <;> simp [runPOST, h1, h2, augment_noop _ _ _ h0]

/-- Witness for the amended C5 at a concrete input. -/
theorem c5_amended_witness :
    hasUser ([⟨Role.assistant, "hi"⟩] : List Message) = false
      ∧ ((fun _ : String => true) "FEN" = true)
      ∧ ¬ resolveApiKey ⟨""⟩ "claude-sonnet-4-20250514" = ""
      ∧ ((runPOST (fun _ => true) ⟨""⟩
              ⟨[⟨Role.assistant, "hi"⟩], "FEN", "claude-sonnet-4-20250514"⟩ "A").1
            = PostResult.stream
          ∧ (runPOST (fun _ => true) ⟨""⟩
              ⟨[⟨Role.assistant, "hi"⟩], "FEN", "claude-sonnet-4-20250514"⟩
              "A").2.providerCall
            = some ⟨claudeModelId, 4096,
                anthropicMessagesOf [⟨Role.assistant, "hi"⟩]⟩) :=
  ⟨by decide, rfl, by decide,
   c5_amended (fun _ => true) ⟨""⟩
     ⟨[⟨Role.assistant, "hi"⟩], "FEN", "claude-sonnet-4-20250514"⟩ "A"
     (by decide) rfl (by decide)⟩

/-! ## C6: invalid position short-circuits -/

/-- Claim C6: when the position string fails structural validation, the
handler returns the 400 JSON error response with the invalid-position
message, writes no engine command, and makes no provider call. -/
theorem c6_invalid_position (chessLoadOk : String → Bool) (env : Env)
    (req : ChatRequest) (analysis : String)
    (h : chessLoadOk req.position = false) :
    runPOST chessLoadOk env req analysis
      = (PostResult.jsonError 400 "Invalid chess position", ⟨[], none⟩) := by
  simp [runPOST, h]

/-- Witness for C6 at a concrete input. -/
theorem c6_witness :
    ((fun _ : String => false) "not a fen" = false)
      ∧ runPOST (fun _ => false) ⟨""⟩
            ⟨[⟨Role.user, "q"⟩], "not a fen", "claude-sonnet-4-20250514"⟩ "A"
          = (PostResult.jsonError 400 "Invalid chess position", ⟨[], none⟩) :=
  ⟨rfl, c6_invalid_position (fun _ => false) ⟨""⟩
    ⟨[⟨Role.user, "q"⟩], "not a fen", "claude-sonnet-4-20250514"⟩ "A" rfl⟩

/-! ## C7: no system roles reach the provider -/

/-- Claim C7: whenever a provider call is made, its message sequence
contains no system-role turn, and its role sequence is exactly the role
sequence of the incoming conversation's non-system messages in their
original relative order (mapped through the provider's role vocabulary). -/
theorem c7_no_system_roles (chessLoadOk : String → Bool) (env : Env)
    (req : ChatRequest) (analysis : String) (pc : ProviderCall)
    (h : (runPOST chessLoadOk env req analysis).2.providerCall = some pc) :
    (∀ m ∈ pc.messages, m.role ≠ Role.system)
      ∧ pc.messages.map Message.role
          = (req.messages.filter fun m => decide (¬ m.role = Role.system)).map
              fun m => toAnthropicRole m.role := by
  by_cases hv : chessLoadOk req.position
  · by_cases hk : resolveApiKey env req.model = ""
    · simp [runPOST, hv, hk] at h
    · have hpc : pc = ⟨claudeModelId, 4096,
          anthropicMessagesOf
            (augmentMessages req.position analysis req.messages)⟩ := by
        have h' := h
        simp [runPOST, hv, hk] at h'
        exact h'.symm
      subst hpc
      constructor
      · intro m hm
        simp [anthropicMessagesOf, List.mem_map] at hm
        obtain ⟨x, _, hx⟩ := hm
        rw [← hx]
        exact toAnthropicRole_ne_system x.role
      · show (anthropicMessagesOf _).map Message.role = _
        rw [anthropicMessagesOf, List.map_map]
        exact augment_filter_map toAnthropicRole req.position analysis req.messages
  · simp [runPOST, hv] at h

/-- Witness for C7 at a concrete input: an assistant turn and a system turn;
the provider call keeps only the assistant turn. -/
theorem c7_witness :
    ((runPOST (fun _ => true) ⟨""⟩
          ⟨[⟨Role.assistant, "hi"⟩, ⟨Role.system, "sys"⟩], "FEN",
           "claude-sonnet-4-20250514"⟩ "A").2.providerCall
        = some ⟨claudeModelId, 4096, [⟨Role.assistant, "hi"⟩]⟩)
      ∧ ((∀ m ∈ ([⟨Role.assistant, "hi"⟩] : List Message), m.role ≠ Role.system)
          ∧ ([(⟨Role.assistant, "hi"⟩ : Message)] : List Message).map Message.role
              = (([⟨Role.assistant, "hi"⟩, ⟨Role.system, "sys"⟩]
                    : List Message).filter fun m =>
                      decide (¬ m.role = Role.system)).map
                  fun m => toAnthropicRole m.role) :=
  ⟨by decide,
   c7_no_system_roles (fun _ => true) ⟨""⟩
     ⟨[⟨Role.assistant, "hi"⟩, ⟨Role.system, "sys"⟩], "FEN",
      "claude-sonnet-4-20250514"⟩ "A"
     ⟨claudeModelId, 4096, [⟨Role.assistant, "hi"⟩]⟩ (by decide)⟩

/-! ## C8: the request is not immutable -/

/-- Claim C8, counterexample: processing a request that reaches the provider
path changes the request's own messages array — the last user message's
content is rewritten in place, so the array after processing differs from
the incoming one. -/
theorem c8_counterexample :
    requestMessagesAfter (fun _ => true) ⟨""⟩
        ⟨[⟨Role.user, "What is best"⟩], "FEN1", "claude-sonnet-4-20250514"⟩ "A"
      ≠ (⟨[⟨Role.user, "What is best"⟩], "FEN1", "claude-sonnet-4-20250514"⟩
          : ChatRequest).messages := by
  decide

/-- Claim C8, amended: processing does mutate the incoming request in place:
whenever the request passes position validation and credential resolution,
the request's messages array afterwards equals the augmented conversation
(the most recent user turn's content rewritten); only the two pre-validation
error paths leave the array unchanged. -/
theorem c8_amended (chessLoadOk : String → Bool) (env : Env) (req : ChatRequest)
    (analysis : String) (h1 : chessLoadOk req.position = true)
    (h2 : ¬ resolveApiKey env req.model = "") :
    requestMessagesAfter chessLoadOk env req analysis
      = augmentMessages req.position analysis req.messages := by
  simp [requestMessagesAfter, h1, h2]

/-- Witness for the amended C8 at a concrete input. -/
theorem c8_amended_witness :
    ((fun _ : String => true) "FEN1" = true)
      ∧ ¬ resolveApiKey ⟨""⟩ "claude-sonnet-4-20250514" = ""
      ∧ requestMessagesAfter (fun _ => true) ⟨""⟩
            ⟨[⟨Role.user, "What is best"⟩], "FEN1", "claude-sonnet-4-20250514"⟩ "A"
          = augmentMessages "FEN1" "A" [⟨Role.user, "What is best"⟩] :=
  ⟨rfl, by decide,
   c8_amended (fun _ => true) ⟨""⟩
     ⟨[⟨Role.user, "What is best"⟩], "FEN1", "claude-sonnet-4-20250514"⟩ "A"
     rfl (by decide)⟩

/-! ## C9: cancellation semantics of the client consumer -/

/-- Claim C9: if the client loop has applied some prefix of received lines
and the pending read then rejects because of cancellation, the loop stops —
every later event is ignored — the conversation holds exactly the deltas
applied strictly before the cancellation (the fold of the prefix, no
rollback), and no failure message is appended; a transport failure at the
same point is distinguished by appending exactly the single fallback
message. -/
theorem c9_cancellation (pre : List WireLine) (rest : List ConsumerEvent)
    (ms : List Message) :
    consume (pre.map ConsumerEvent.recv ++ ConsumerEvent.abortSignal :: rest) ms
        = (pre.foldl (fun acc l => applyLine l acc) ms, ConsumeOutcome.cancelled)
      ∧ consume (pre.map ConsumerEvent.recv ++ ConsumerEvent.transportFail :: rest)
            ms
          = (pre.foldl (fun acc l => applyLine l acc) ms ++ [fallbackMessage],
             ConsumeOutcome.failed) := by
  induction pre generalizing ms with
  | nil => exact ⟨rfl, rfl⟩
  | cons l pre ih =>
    simpa [consume, List.map_cons, List.cons_append, List.foldl_cons] using
      ih (applyLine l ms)

/-! ## C10: the provider model identifier is fixed -/

/-- Claim C10: every request that passes position validation and credential
resolution produces a provider call whose model identifier is the fixed
hardcoded one, regardless of the model field of the request (which only
selects the credential). -/
theorem c10_fixed_model (chessLoadOk : String → Bool) (env : Env)
    (req : ChatRequest) (analysis : String)
    (h1 : chessLoadOk req.position = true)
    (h2 : ¬ resolveApiKey env req.model = "") :
    ∃ pc, (runPOST chessLoadOk env req analysis).2.providerCall = some pc
      ∧ pc.model = claudeModelId := by
  refine ⟨⟨claudeModelId, 4096,
    anthropicMessagesOf (augmentMessages req.position analysis req.messages)⟩,
    ?_, rfl⟩
  simp [runPOST, h1, h2]

/-- Witness for C10 at a concrete input: the request selects the gemini
model (whose credential resolves from the environment), yet the provider
call still uses the fixed claude model identifier. -/
theorem c10_witness :
    ((fun _ : String => true) "FEN" = true)
      ∧ ¬ resolveApiKey ⟨"gkey"⟩ "gemini-2.5-pro" = ""
      ∧ ∃ pc, (runPOST (fun _ => true) ⟨"gkey"⟩
            ⟨[⟨Role.user, "q"⟩], "FEN", "gemini-2.5-pro"⟩ "A").2.providerCall
          = some pc ∧ pc.model = claudeModelId :=
  ⟨rfl, by decide,
   c10_fixed_model (fun _ => true) ⟨"gkey"⟩
     ⟨[⟨Role.user, "q"⟩], "FEN", "gemini-2.5-pro"⟩ "A" rfl (by decide)⟩

end ChessCoach
